import Mathlib

/-!
Verification of the SAP → M3U converter (`sap_to_m3u.py`).

The parsing core of the program is embedded shallowly: byte strings are
`List Nat` (each element one byte value), decoded text is `List Char`,
and every Python routine the claims depend on is translated into a
computable Lean function.  The `timestamp` field of the session record
(`datetime.now().isoformat()`) is an external clock value that no claim
refers to; it is omitted from the embedding.
-/

namespace SapM3u

/-- Python `str.isspace` on a single character: the set of code points
`str.strip()` removes and `str.split()` (no argument) splits on. -/
def isPySpace (c : Char) : Bool :=
  decide (9 ≤ c.toNat ∧ c.toNat ≤ 13) || decide (28 ≤ c.toNat ∧ c.toNat ≤ 32) ||
  decide (c.toNat = 133) || decide (c.toNat = 160) || decide (c.toNat = 5760) ||
  decide (8192 ≤ c.toNat ∧ c.toNat ≤ 8202) || decide (c.toNat = 8232) ||
  decide (c.toNat = 8233) || decide (c.toNat = 8239) || decide (c.toNat = 8287) ||
  decide (c.toNat = 12288)

/-- Python `str.strip()`: drop leading and trailing whitespace. -/
def pyStrip (s : List Char) : List Char :=
  ((s.dropWhile isPySpace).reverse.dropWhile isPySpace).reverse

/-- Python `str.startswith(pat)` (first argument is the pattern). -/
def listStartsWith : List Char → List Char → Bool
  | [], _ => true
  | _ :: _, [] => false
  | p :: ps, c :: cs => p == c && listStartsWith ps cs

/-- Helper for Python `str.split()` with no argument: accumulate the
current token (reversed) and emit it at each whitespace run. -/
def splitWsAux : List Char → List Char → List (List Char)
  | [], cur => if cur = [] then [] else [cur.reverse]
  | c :: rest, cur =>
    if isPySpace c then
      if cur = [] then splitWsAux rest [] else cur.reverse :: splitWsAux rest []
    else splitWsAux rest (c :: cur)

/-- Python `str.split()` with no argument: split on whitespace runs,
producing no empty tokens. -/
def splitWs (s : List Char) : List (List Char) := splitWsAux s []

/-- Python `bytes.decode('ascii', errors='ignore')`: bytes ≥ 128 are
dropped, the rest become their ASCII characters. -/
def decodeAsciiIgnore : List Nat → List Char
  | [] => []
  | b :: rest =>
    if b < 128 then Char.ofNat b :: decodeAsciiIgnore rest else decodeAsciiIgnore rest

/-- State of the UTF-8 decoder while inside a multi-byte sequence:
continuation bytes still needed, code-point bits accumulated so far,
and the admissible range for the next byte (CPython restricts the first
continuation byte per lead byte, which rejects overlong forms and
surrogates). -/
structure Utf8State where
  need : Nat
  acc : Nat
  lo : Nat
  hi : Nat
deriving DecidableEq

/-- Classify a byte in start position: an ASCII byte yields a character,
a valid lead byte opens a multi-byte sequence, and anything else
(0x80–0xC1 or 0xF5–0xFF) is invalid — under `errors='ignore'` such a
byte is dropped. -/
def utf8StartByte (b : Nat) : Option Char × Option Utf8State :=
  if b < 128 then (some (Char.ofNat b), none)
  else if 194 ≤ b ∧ b ≤ 223 then (none, some ⟨1, b - 192, 128, 191⟩)
  else if b = 224 then (none, some ⟨2, 0, 160, 191⟩)
  else if 225 ≤ b ∧ b ≤ 236 then (none, some ⟨2, b - 224, 128, 191⟩)
  else if b = 237 then (none, some ⟨2, 13, 128, 159⟩)
  else if 238 ≤ b ∧ b ≤ 239 then (none, some ⟨2, b - 224, 128, 191⟩)
  else if b = 240 then (none, some ⟨3, 0, 144, 191⟩)
  else if 241 ≤ b ∧ b ≤ 243 then (none, some ⟨3, b - 240, 128, 191⟩)
  else if b = 244 then (none, some ⟨3, 4, 128, 143⟩)
  else (none, none)

/-- Core loop of Python `bytes.decode('utf-8', errors='ignore')`:
invalid bytes and invalid or truncated sequences are skipped without a
trace, the byte that broke a sequence being reconsidered as a possible
start byte, exactly as CPython's `ignore` error handler behaves. -/
def decodeUtf8Go : Option Utf8State → List Nat → List Char
  | _, [] => []
  | none, b :: rest =>
    match utf8StartByte b with
    | (some c, st) => c :: decodeUtf8Go st rest
    | (none, st) => decodeUtf8Go st rest
  | some st, b :: rest =>
    if st.lo ≤ b ∧ b ≤ st.hi then
      if st.need ≤ 1 then Char.ofNat (st.acc * 64 + (b - 128)) :: decodeUtf8Go none rest
      else decodeUtf8Go (some ⟨st.need - 1, st.acc * 64 + (b - 128), 128, 191⟩) rest
    else
      match utf8StartByte b with
      | (some c, st2) => c :: decodeUtf8Go st2 rest
      | (none, st2) => decodeUtf8Go st2 rest

/-- Python `bytes.decode('utf-8', errors='ignore')`. -/
def decodeUtf8Ignore (bs : List Nat) : List Char := decodeUtf8Go none bs

/-- The `session_info` record built by `SAPCollector.parse_sdp`; the
`timestamp` field is omitted (wall-clock metadata no claim refers to).
`stream_url` is `none` exactly when the `'stream_url'` key is absent
from the Python dict. -/
structure Session where
  name : List Char
  description : List Char
  url : List Char
  connection : List Char
  media_port : List Char
  media_type : List Char
  group : List Char
  stream_url : Option (List Char)
deriving DecidableEq

/-- The freshly initialised `session_info` dict: every text field empty,
no `stream_url` key. -/
def initSession : Session := ⟨[], [], [], [], [], [], [], none⟩

/-- The `'s='` line marker. -/
def sPre : List Char := ['s', '=']

/-- The `'i='` line marker. -/
def iPre : List Char := ['i', '=']

/-- The `'u='` line marker. -/
def uPre : List Char := ['u', '=']

/-- The `'c='` line marker. -/
def cPre : List Char := ['c', '=']

/-- The `'m='` line marker. -/
def mPre : List Char := ['m', '=']

/-- The `'a=x-plgroup:'` vendor attribute marker (12 characters). -/
def gPre : List Char := ['a', '=', 'x', '-', 'p', 'l', 'g', 'r', 'o', 'u', 'p', ':']

/-- Body of the `for line in lines` loop of `parse_sdp`: strip the line,
then update at most one field selected by the line's prefix; an `m=`
line updates the media fields only when it splits into at least three
whitespace-separated tokens. -/
def sdpLine (si : Session) (rawLine : List Char) : Session :=
  let line := pyStrip rawLine
  if listStartsWith sPre line then { si with name := line.drop 2 }
  else if listStartsWith iPre line then { si with description := line.drop 2 }
  else if listStartsWith uPre line then { si with url := line.drop 2 }
  else if listStartsWith cPre line then { si with connection := line.drop 2 }
  else if listStartsWith mPre line then
    if 3 ≤ (splitWs (line.drop 2)).length then
      { si with media_type := (splitWs (line.drop 2)).getD 0 [],
                media_port := (splitWs (line.drop 2)).getD 1 [] }
    else si
  else if listStartsWith gPre line then { si with group := line.drop 12 }
  else si

/-- Post-loop step of `parse_sdp`: derive `stream_url` from `connection`
and `media_port` when both are non-empty and the connection value has at
least three whitespace-separated fields; the IP is the third field with
everything from the first `/` on removed (`split('/')[0]`). -/
def deriveStream (si : Session) : Session :=
  if si.connection ≠ [] ∧ si.media_port ≠ [] then
    if 3 ≤ (splitWs si.connection).length then
      { si with stream_url := some (("rtp://".toList) ++
                  ((splitWs si.connection).getD 2 []).takeWhile (fun c => c != '/') ++
                  (":".toList) ++ si.media_port) }
    else si
  else si

/-- `SAPCollector.parse_sdp` applied to already-decoded text: strip the
text, split on newlines, scan the lines, derive the stream URL, and
return the record only when `name` is non-empty. -/
def sdpFromText (text : List Char) : Option Session :=
  let si := deriveStream (((pyStrip text).splitOn '\n').foldl sdpLine initSession)
  if si.name ≠ [] then some si else none

/-- `SAPCollector.parse_sdp` (bytes in, optional session out). -/
def parse_sdp (data : List Nat) : Option Session :=
  sdpFromText (decodeUtf8Ignore data)

/-- Index of the first NUL byte, or the list's length when there is
none: the model of `payload.find(b'\x00')`, whose `-1` result
corresponds here to `listFind0 payload = payload.length`. -/
def listFind0 : List Nat → Nat
  | [] => 0
  | b :: rest => if b = 0 then 0 else listFind0 rest + 1

/-- `SAPCollector.parse_sap_packet`.  Header bit fields are extracted
arithmetically: for a byte value `b0`, `(b0 & 0xE0) >> 5 = b0 / 32 % 8`,
`(b0 & 0x02) >> 1 = b0 / 2 % 2` and `b0 & 0x01 = b0 % 2`.  The unused
diagnostic fields (`address_type`, `reserved`, `message_type`,
`msg_id_hash`) do not influence the result and are not modelled. -/
def parse_sap_packet (data : List Nat) : Option Session :=
  if data.length < 4 then none
  else
    let b0 := data.getD 0 0
    let version := b0 / 32 % 8
    let encrypted := b0 / 2 % 2
    let compressed := b0 % 2
    let auth_len := data.getD 1 0
    if version ≠ 1 then none
    else if compressed ≠ 0 then none
    else if encrypted ≠ 0 then none
    else
      let offset := 8 + auth_len * 4
      if data.length ≤ offset then none
      else
        let payload := data.drop offset
        let mimeEnd := listFind0 payload
        let mime_type :=
          if mimeEnd = payload.length then "application/sdp".toList
          else decodeAsciiIgnore (payload.take mimeEnd)
        let sdp_data :=
          if mimeEnd = payload.length then payload
          else payload.drop (mimeEnd + 1)
        if mime_type = "application/sdp".toList ∨ mime_type = [] then parse_sdp sdp_data
        else none

/-- The streamURI-keyed registry: the ordered dict `self.streams`
(Python dicts preserve insertion order, modelled as an association
list extended at the end). -/
abbrev Registry := List (List Char × Session)

/-- Key membership test `stream_id in self.streams`. -/
def containsKey (r : Registry) (u : List Char) : Bool := r.any (fun e => e.1 == u)

/-- The registration step inside `collect_announcements`: a session is
stored only when its `stream_url` key is present and truthy (non-empty)
and its value is not yet a key of the registry. -/
def register (s : Session) (r : Registry) : Registry :=
  match s.stream_url with
  | none => r
  | some u => if u = [] then r else if containsKey r u then r else r ++ [(u, s)]

/-- Fuel-indexed core of Python `str.replace`; the fuel is the input
length, which bounds the number of scanning steps. -/
def pyReplaceAux (pat rep : List Char) : Nat → List Char → List Char
  | 0, s => s
  | _ + 1, [] => []
  | fuel + 1, c :: rest =>
    if pat ≠ [] ∧ listStartsWith pat (c :: rest) then
      rep ++ pyReplaceAux pat rep fuel (rest.drop (pat.length - 1))
    else c :: pyReplaceAux pat rep fuel rest

/-- Python `s.replace(pat, rep)`: every non-overlapping occurrence of
`pat`, scanning left to right, is replaced by `rep`. -/
def pyReplace (pat rep s : List Char) : List Char := pyReplaceAux pat rep s.length s

/-- Substring occurrence test (used to state concrete counterexamples
and witnesses about generated playlist text). -/
def listContainsSub (pat : List Char) : List Char → Bool
  | [] => pat == []
  | c :: rest => listStartsWith pat (c :: rest) || listContainsSub pat rest

/-- The `tvg_id` computation of `generate_m3u`:
`stream_url.replace('rtp://', '').replace(':', '_').replace('/', '_')`. -/
def tvgId (u : List Char) : List Char :=
  pyReplace ("/".toList) ("_".toList)
    (pyReplace (":".toList) ("_".toList)
      (pyReplace ("rtp://".toList) [] u))

/-- Text written for one registry entry by the loop body of
`generate_m3u`: the optional `#EXTGRP` line, the `#EXTINF` line and the
literal stream URI line. -/
def m3u_entry (e : List Char × Session) : List Char :=
  let stream_url := e.1
  let info := e.2
  let name := if info.name = [] then "Unknown Stream".toList else info.name
  let description := info.description
  let group := info.group
  let group_title := if group = [] then "General".toList else group
  (if group = [] then [] else ("#EXTGRP:".toList) ++ group ++ ("\n".toList)) ++
  ("#EXTINF:-1 tvg-id=\"".toList) ++ tvgId stream_url ++
  ("\" tvg-name=\"".toList) ++ name ++
  ("\" group-title=\"".toList) ++ group_title ++ ("\"".toList) ++
  (if description = [] then (",".toList) ++ name
   else (",".toList) ++ name ++ (" - ".toList) ++ description) ++
  ("\n".toList) ++ stream_url ++ ("\n".toList)

/-- `SAPCollector.generate_m3u` as the text it writes: `none` when the
registry is empty (the function prints a notice and writes no file),
otherwise the header line followed by each entry's block in insertion
order. -/
def m3u_text (streams : Registry) : Option (List Char) :=
  if streams = [] then none
  else some (streams.foldl (fun acc e => acc ++ m3u_entry e) ("#EXTM3U\n".toList))

/-- Byte string of an ASCII Lean string literal, used to build concrete
packet inputs. -/
def asciiBytes (s : String) : List Nat := s.toList.map Char.toNat

/-- Value an SDP line contributes to the `name` field (`s=` lines). -/
def sVal (l : List Char) : Option (List Char) :=
  if listStartsWith sPre (pyStrip l) then some ((pyStrip l).drop 2) else none

/-- Value an SDP line contributes to the `description` field (`i=`). -/
def iVal (l : List Char) : Option (List Char) :=
  if listStartsWith iPre (pyStrip l) then some ((pyStrip l).drop 2) else none

/-- Value an SDP line contributes to the `url` field (`u=`). -/
def uVal (l : List Char) : Option (List Char) :=
  if listStartsWith uPre (pyStrip l) then some ((pyStrip l).drop 2) else none

/-- Value an SDP line contributes to the `connection` field (`c=`). -/
def cVal (l : List Char) : Option (List Char) :=
  if listStartsWith cPre (pyStrip l) then some ((pyStrip l).drop 2) else none

/-- Media pair (type, port) an SDP line contributes (`m=` lines with at
least three whitespace-separated tokens). -/
def mVal (l : List Char) : Option (List Char × List Char) :=
  if listStartsWith mPre (pyStrip l) then
    if 3 ≤ (splitWs ((pyStrip l).drop 2)).length then
      some ((splitWs ((pyStrip l).drop 2)).getD 0 [],
            (splitWs ((pyStrip l).drop 2)).getD 1 [])
    else none
  else none

/-- Value an SDP line contributes to the `group` field
(`a=x-plgroup:` lines). -/
def gVal (l : List Char) : Option (List Char) :=
  if listStartsWith gPre (pyStrip l) then
    some ((pyStrip l).drop 12)
  else none

/-! ### Helper lemmas about the SDP line scan -/

lemma sw_clash {c d : Char} {t1 t2 l : List Char} (hcd : c ≠ d)
    (h : listStartsWith (c :: t1) l = true) :
    listStartsWith (d :: t2) l = false := by
  cases l with
  | nil => simp [listStartsWith] at h
  | cons x xs =>
    simp only [listStartsWith, Bool.and_eq_true, beq_iff_eq] at h
    have hdx : (d == x) = false := by
      rw [beq_eq_false_iff_ne]
      exact fun hh => hcd (h.1.trans hh.symm)
    simp [listStartsWith, hdx]

lemma sdpLine_stream (si : Session) (l : List Char) :
    (sdpLine si l).stream_url = si.stream_url := by
  simp only [sdpLine]
  split_ifs <;> rfl

lemma sdpLine_name (si : Session) (l : List Char) :
    (sdpLine si l).name = (sVal l).getD si.name := by
  simp only [sdpLine, sVal]
  split_ifs <;> rfl

lemma sdpLine_description (si : Session) (l : List Char) :
    (sdpLine si l).description = (iVal l).getD si.description := by
  by_cases hs : listStartsWith sPre (pyStrip l) = true
  · have hi : listStartsWith iPre (pyStrip l) = false := by
      simp only [sPre] at hs
      simp only [iPre]
      exact sw_clash (by decide) hs
    simp [sdpLine, iVal, hs, hi]
  · simp only [sdpLine, iVal, hs]
    split_ifs <;> first | exact (False.elim (by assumption)) | rfl

lemma sdpLine_url (si : Session) (l : List Char) :
    (sdpLine si l).url = (uVal l).getD si.url := by
  by_cases hs : listStartsWith sPre (pyStrip l) = true
  · have hu : listStartsWith uPre (pyStrip l) = false := by
      simp only [sPre] at hs
      simp only [uPre]
      exact sw_clash (by decide) hs
    simp [sdpLine, uVal, hs, hu]
  · by_cases hi : listStartsWith iPre (pyStrip l) = true
    · have hu : listStartsWith uPre (pyStrip l) = false := by
        simp only [iPre] at hi
        simp only [uPre]
        exact sw_clash (by decide) hi
      simp [sdpLine, uVal, hs, hi, hu]
    · simp only [sdpLine, uVal, hs, hi]
      split_ifs <;> first | exact (False.elim (by assumption)) | rfl

lemma sdpLine_connection (si : Session) (l : List Char) :
    (sdpLine si l).connection = (cVal l).getD si.connection := by
  by_cases hs : listStartsWith sPre (pyStrip l) = true
  · have hc : listStartsWith cPre (pyStrip l) = false := by
      simp only [sPre] at hs
      simp only [cPre]
      exact sw_clash (by decide) hs
    simp [sdpLine, cVal, hs, hc]
  · by_cases hi : listStartsWith iPre (pyStrip l) = true
    · have hc : listStartsWith cPre (pyStrip l) = false := by
        simp only [iPre] at hi
        simp only [cPre]
        exact sw_clash (by decide) hi
      simp [sdpLine, cVal, hs, hi, hc]
    · by_cases hu : listStartsWith uPre (pyStrip l) = true
      · have hc : listStartsWith cPre (pyStrip l) = false := by
          simp only [uPre] at hu
          simp only [cPre]
          exact sw_clash (by decide) hu
        simp [sdpLine, cVal, hs, hi, hu, hc]
      · simp only [sdpLine, cVal, hs, hi, hu]
        split_ifs <;> first | exact (False.elim (by assumption)) | rfl

lemma sdpLine_media (si : Session) (l : List Char) :
    (sdpLine si l).media_type = ((mVal l).map Prod.fst).getD si.media_type ∧
    (sdpLine si l).media_port = ((mVal l).map Prod.snd).getD si.media_port := by
  by_cases hs : listStartsWith sPre (pyStrip l) = true
  · have hm : listStartsWith mPre (pyStrip l) = false := by
      simp only [sPre] at hs
      simp only [mPre]
      exact sw_clash (by decide) hs
    simp [sdpLine, mVal, hs, hm]
  · by_cases hi : listStartsWith iPre (pyStrip l) = true
    · have hm : listStartsWith mPre (pyStrip l) = false := by
        simp only [iPre] at hi
        simp only [mPre]
        exact sw_clash (by decide) hi
      simp [sdpLine, mVal, hs, hi, hm]
    · by_cases hu : listStartsWith uPre (pyStrip l) = true
      · have hm : listStartsWith mPre (pyStrip l) = false := by
          simp only [uPre] at hu
          simp only [mPre]
          exact sw_clash (by decide) hu
        simp [sdpLine, mVal, hs, hi, hu, hm]
      · by_cases hc : listStartsWith cPre (pyStrip l) = true
        · have hm : listStartsWith mPre (pyStrip l) = false := by
            simp only [cPre] at hc
            simp only [mPre]
            exact sw_clash (by decide) hc
          simp [sdpLine, mVal, hs, hi, hu, hc, hm]
        · simp only [sdpLine, mVal, hs, hi, hu, hc]
          split_ifs <;> first | exact (False.elim (by assumption)) | simp

/-- A fold of the line scanner decomposes per field: each field ends up
holding the value of the last line that wrote to it. -/
lemma foldl_proj {α : Type} (proj : Session → α) (f : List Char → Option α)
    (hstep : ∀ si l, proj (sdpLine si l) = (f l).getD (proj si))
    (ls : List (List Char)) (si : Session) :
    proj (ls.foldl sdpLine si) = ((ls.filterMap f).getLast?).getD (proj si) := by
  induction ls using List.reverseRecOn with
  | nil => rfl
  | append_singleton t a ih =>
    rw [List.foldl_append, List.filterMap_append]
    simp only [List.foldl_cons, List.foldl_nil, hstep]
    cases hfa : f a with
    | none => simp [hfa, ih]
    | some v => simp [hfa, List.getLast?_concat]

lemma foldl_stream (ls : List (List Char)) (si : Session) :
    (ls.foldl sdpLine si).stream_url = si.stream_url := by
  induction ls generalizing si with
  | nil => rfl
  | cons a t ih => rw [List.foldl_cons, ih, sdpLine_stream]

lemma foldl_name (ls : List (List Char)) (si : Session) :
    (ls.foldl sdpLine si).name = ((ls.filterMap sVal).getLast?).getD si.name :=
  foldl_proj (fun s => s.name) sVal sdpLine_name ls si

lemma foldl_description (ls : List (List Char)) (si : Session) :
    (ls.foldl sdpLine si).description =
      ((ls.filterMap iVal).getLast?).getD si.description :=
  foldl_proj (fun s => s.description) iVal sdpLine_description ls si

lemma foldl_url (ls : List (List Char)) (si : Session) :
    (ls.foldl sdpLine si).url = ((ls.filterMap uVal).getLast?).getD si.url :=
  foldl_proj (fun s => s.url) uVal sdpLine_url ls si

lemma foldl_connection (ls : List (List Char)) (si : Session) :
    (ls.foldl sdpLine si).connection =
      ((ls.filterMap cVal).getLast?).getD si.connection :=
  foldl_proj (fun s => s.connection) cVal sdpLine_connection ls si

lemma foldl_media_type (ls : List (List Char)) (si : Session) :
    (ls.foldl sdpLine si).media_type =
      ((ls.filterMap (fun l => (mVal l).map Prod.fst)).getLast?).getD si.media_type :=
  foldl_proj (fun s => s.media_type) (fun l => (mVal l).map Prod.fst)
    (fun si l => (sdpLine_media si l).1) ls si

lemma foldl_media_port (ls : List (List Char)) (si : Session) :
    (ls.foldl sdpLine si).media_port =
      ((ls.filterMap (fun l => (mVal l).map Prod.snd)).getLast?).getD si.media_port :=
  foldl_proj (fun s => s.media_port) (fun l => (mVal l).map Prod.snd)
    (fun si l => (sdpLine_media si l).2) ls si

/-- Unfolding of `parse_sdp` into scan plus derivation plus name check. -/
lemma parse_sdp_eq (data : List Nat) :
    parse_sdp data =
      (if (deriveStream (((pyStrip (decodeUtf8Ignore data)).splitOn '\n').foldl
            sdpLine initSession)).name ≠ []
       then some (deriveStream (((pyStrip (decodeUtf8Ignore data)).splitOn '\n').foldl
            sdpLine initSession))
       else none) := rfl

lemma deriveStream_name (si : Session) : (deriveStream si).name = si.name := by
  simp only [deriveStream]
  split_ifs <;> rfl

lemma deriveStream_connection (si : Session) :
    (deriveStream si).connection = si.connection := by
  simp only [deriveStream]
  split_ifs <;> rfl

lemma deriveStream_media_port (si : Session) :
    (deriveStream si).media_port = si.media_port := by
  simp only [deriveStream]
  split_ifs <;> rfl

lemma deriveStream_stream (si : Session) (h0 : si.stream_url = none) :
    ((deriveStream si).stream_url.isSome = true ↔
      (si.connection ≠ [] ∧ si.media_port ≠ [] ∧ 3 ≤ (splitWs si.connection).length)) ∧
    (∀ u, (deriveStream si).stream_url = some u →
      u = ("rtp://".toList) ++
          ((splitWs si.connection).getD 2 []).takeWhile (fun c => c != '/') ++
          (":".toList) ++ si.media_port) := by
  simp only [deriveStream]
  split_ifs with h1 h2
  · constructor
    · simp [h1, h2]
    · intro u hu
      simpa using hu.symm
  · constructor
    · simp [h0, h2, h1]
    · intro u hu
      simp [h0] at hu
  · constructor
    · simp only [not_and_or] at h1
      simp [h0, h1]
      intro hc hp
      rcases h1 with h | h
      · exact absurd hc h
      · exact absurd hp h
    · intro u hu
      simp [h0] at hu

/-! ### Claim C2 -/

/-- C2: a SessionDescription produced by `parse_sdp` has a `stream_url`
iff its connection value and media port are non-empty and the connection
value has at least three whitespace-separated fields; when present, the
URL is `rtp://` ++ ip ++ `:` ++ port, where ip is the third field of
the connection value truncated at its first `/`. -/
theorem sap_c2 (data : List Nat) (s : Session) (h : parse_sdp data = some s) :
    ((s.stream_url.isSome = true) ↔
      (s.connection ≠ [] ∧ s.media_port ≠ [] ∧ 3 ≤ (splitWs s.connection).length)) ∧
    (∀ u, s.stream_url = some u →
      u = ("rtp://".toList) ++
          ((splitWs s.connection).getD 2 []).takeWhile (fun c => c != '/') ++
          (":".toList) ++ s.media_port) := by
  rw [parse_sdp_eq] at h
  split_ifs at h with hname
  · obtain rfl := Option.some.inj h
    have h0 : (((pyStrip (decodeUtf8Ignore data)).splitOn '\n').foldl
        sdpLine initSession).stream_url = none := foldl_stream _ _
    rw [deriveStream_connection, deriveStream_media_port]
    exact deriveStream_stream _ h0

/-- Concrete input for the C2 witness. -/
def w2data : List Nat := asciiBytes "s=X\nc=IN IP4 10.0.0.1/32\nm=video 5004 RTP/AVP 33"

/-- Session parsed from `w2data`. -/
def w2sess : Session :=
  ⟨"X".toList, [], [], "IN IP4 10.0.0.1/32".toList, "5004".toList, "video".toList, [],
   some ("rtp://10.0.0.1:5004".toList)⟩

/-- Witness for C2 at a concrete SDP body. -/
theorem sap_c2_witness :
    (parse_sdp w2data = some w2sess) ∧
    (w2sess.stream_url.isSome = true ↔
      (w2sess.connection ≠ [] ∧ w2sess.media_port ≠ [] ∧
        3 ≤ (splitWs w2sess.connection).length)) :=
  ⟨by decide, (sap_c2 w2data w2sess (by decide)).1⟩

/-! ### Claim C7 -/

/-- C7: `parse_sdp` returns a session only when the name (last `s=`
value) is non-empty; an SDP body whose lines contribute no non-empty
`s=` value parses to nothing regardless of the other fields. -/
theorem sap_c7 :
    (∀ (data : List Nat) (s : Session), parse_sdp data = some s → s.name ≠ []) ∧
    (∀ data : List Nat,
      (∀ l ∈ (pyStrip (decodeUtf8Ignore data)).splitOn '\n',
        sVal l = none ∨ sVal l = some []) →
      parse_sdp data = none) := by
  constructor
  · intro data s h
    rw [parse_sdp_eq] at h
    split_ifs at h with hname
    · obtain rfl := Option.some.inj h
      exact hname
  · intro data hno
    rw [parse_sdp_eq]
    have hn : (((pyStrip (decodeUtf8Ignore data)).splitOn '\n').foldl
        sdpLine initSession).name = [] := by
      rw [foldl_name]
      cases hlast : (((pyStrip (decodeUtf8Ignore data)).splitOn '\n').filterMap sVal).getLast? with
      | none => rfl
      | some v =>
        have hv := List.mem_of_mem_getLast? hlast
        rw [List.mem_filterMap] at hv
        obtain ⟨l, hl, hvl⟩ := hv
        rcases hno l hl with h1 | h1
        · rw [h1] at hvl
          cases hvl
        · rw [h1] at hvl
          cases hvl
          rfl
    rw [if_neg]
    simp [deriveStream_name, hn]

/-- Concrete input for the C7 witness, first conjunct. -/
def w7adata : List Nat := asciiBytes "v=0\ns=Hello"

/-- Session parsed from `w7adata`. -/
def w7asess : Session := ⟨"Hello".toList, [], [], [], [], [], [], none⟩

/-- Concrete input for the C7 witness, second conjunct: connection and
media are present but no `s=` line. -/
def w7bdata : List Nat := asciiBytes "c=IN IP4 1.2.3.4\nm=video 80 RTP 1"

/-- Witness for C7 at concrete SDP bodies. -/
theorem sap_c7_witness :
    (parse_sdp w7adata = some w7asess) ∧ w7asess.name ≠ [] ∧ parse_sdp w7bdata = none :=
  ⟨by decide, sap_c7.1 w7adata w7asess (by decide), sap_c7.2 w7bdata (by decide)⟩

/-! ### Claim C10 -/

/-- C10: each handled SDP line kind overwrites its field, so after the
scan every field holds the value of the last line of its kind (the
initial value if none); consequently the media port used to derive the
stream URL is that of the last `m=` line with at least three tokens. -/
theorem sap_c10 :
    (∀ (ls : List (List Char)) (si : Session),
      (ls.foldl sdpLine si).name = ((ls.filterMap sVal).getLast?).getD si.name ∧
      (ls.foldl sdpLine si).description =
        ((ls.filterMap iVal).getLast?).getD si.description ∧
      (ls.foldl sdpLine si).url = ((ls.filterMap uVal).getLast?).getD si.url ∧
      (ls.foldl sdpLine si).connection =
        ((ls.filterMap cVal).getLast?).getD si.connection ∧
      (ls.foldl sdpLine si).media_type =
        ((ls.filterMap (fun l => (mVal l).map Prod.fst)).getLast?).getD si.media_type ∧
      (ls.foldl sdpLine si).media_port =
        ((ls.filterMap (fun l => (mVal l).map Prod.snd)).getLast?).getD si.media_port) ∧
    (∀ (data : List Nat) (s : Session), parse_sdp data = some s →
      s.media_port =
        ((((pyStrip (decodeUtf8Ignore data)).splitOn '\n').filterMap
            (fun l => (mVal l).map Prod.snd)).getLast?).getD []) := by
  constructor
  · intro ls si
    exact ⟨foldl_name ls si, foldl_description ls si, foldl_url ls si,
           foldl_connection ls si, foldl_media_type ls si, foldl_media_port ls si⟩
  · intro data s h
    rw [parse_sdp_eq] at h
    split_ifs at h with hname
    · obtain rfl := Option.some.inj h
      rw [deriveStream_media_port]
      exact foldl_media_port _ _

/-- Concrete input for the C10 witness: two `m=` lines; the port of the
last one is kept. -/
def w10data : List Nat := asciiBytes "s=A\nc=IN IP4 9.9.9.9\nm=audio 10 RTP 1\nm=video 20 RTP 2"

/-- Session parsed from `w10data`. -/
def w10sess : Session :=
  ⟨"A".toList, [], [], "IN IP4 9.9.9.9".toList, "20".toList, "video".toList, [],
   some ("rtp://9.9.9.9:20".toList)⟩

/-- Witness for C10 at a concrete SDP body with two media lines. -/
theorem sap_c10_witness :
    (parse_sdp w10data = some w10sess) ∧
    w10sess.media_port =
      ((((pyStrip (decodeUtf8Ignore w10data)).splitOn '\n').filterMap
          (fun l => (mVal l).map Prod.snd)).getLast?).getD [] :=
  ⟨by decide, sap_c10.2 w10data w10sess (by decide)⟩

/-! ### Helper lemmas about the NUL search -/

lemma listFind0_le (l : List Nat) : listFind0 l ≤ l.length := by
  induction l with
  | nil => simp [listFind0]
  | cons b t ih =>
    simp only [listFind0, List.length_cons]
    split_ifs <;> omega

lemma listFind0_eq_length_iff (l : List Nat) : listFind0 l = l.length ↔ ¬ (0 ∈ l) := by
  induction l with
  | nil => simp [listFind0]
  | cons b t ih =>
    by_cases hb : b = 0
    · subst hb
      constructor
      · intro h
        exfalso
        have hlen : listFind0 (0 :: t) = 0 := by simp [listFind0]
        rw [hlen, List.length_cons] at h
        exact Nat.succ_ne_zero _ h.symm
      · intro h
        exact absurd (List.mem_cons_self 0 t) h
    · simp only [listFind0, List.length_cons, if_neg hb, List.mem_cons, not_or]
      constructor
      · intro h
        exact ⟨fun h0 => hb h0.symm, ih.mp (by omega)⟩
      · rintro ⟨h1, h2⟩
        rw [ih.mpr h2]

lemma listFind0_take (l : List Nat) :
    l.take (listFind0 l) = l.takeWhile (fun b => b != 0) := by
  induction l with
  | nil => rfl
  | cons b t ih =>
    simp only [listFind0]
    split_ifs with hb
    · subst hb
      simp [List.takeWhile]
    · have hb' : (b != 0) = true := by simpa using hb
      simp [List.take, List.takeWhile, hb', ih]

lemma listFind0_eq_takeWhile_length (l : List Nat) :
    listFind0 l = (l.takeWhile (fun b => b != 0)).length := by
  induction l with
  | nil => rfl
  | cons b t ih =>
    simp only [listFind0]
    split_ifs with hb
    · subst hb
      simp [List.takeWhile]
    · have hb' : (b != 0) = true := by simpa using hb
      simp [List.takeWhile, hb', ih]

/-! ### Claim C4 -/

/-- C4: any datagram of at least 4 bytes whose version field (bits 7–5
of byte 0) is not 1, or whose compressed bit (bit 0) is 1, or whose
encrypted bit (bit 1) is 1, parses to nothing whatever the rest of the
payload holds. -/
theorem sap_c4 (data : List Nat) (h4 : 4 ≤ data.length)
    (h : (data.getD 0 0) / 32 % 8 ≠ 1 ∨ (data.getD 0 0) % 2 = 1 ∨
         (data.getD 0 0) / 2 % 2 = 1) :
    parse_sap_packet data = none := by
  simp only [parse_sap_packet]
  split_ifs <;> first | (rcases h with h | h | h <;> omega) | rfl

/-- Concrete datagram with version 0 for the C4 witness. -/
def w4data : List Nat := [0, 0, 0, 0, 65]

/-- Witness for C4 at a concrete datagram. -/
theorem sap_c4_witness : 4 ≤ w4data.length ∧ parse_sap_packet w4data = none :=
  ⟨by decide, sap_c4 w4data (by decide) (by decide)⟩

/-! ### Claim C5 -/

/-- C5: a datagram shorter than 4 bytes parses to nothing (the embedded
parser is a total function, so no exception can be raised), and a
datagram of at least 4 bytes whose length is at most
`8 + authLength * 4` likewise parses to nothing. -/
theorem sap_c5 :
    (∀ data : List Nat, data.length < 4 → parse_sap_packet data = none) ∧
    (∀ data : List Nat, 4 ≤ data.length →
      data.length ≤ 8 + (data.getD 1 0) * 4 → parse_sap_packet data = none) := by
  constructor
  · intro data h
    simp only [parse_sap_packet]
    rw [if_pos h]
  · intro data h4 hlen
    simp only [parse_sap_packet]
    split_ifs <;> rfl

/-- Concrete datagram for the C5 witness: version 1 but one auth block
announced, so the payload offset (12) exceeds the length (8). -/
def w5data : List Nat := [32, 1, 0, 0, 0, 0, 0, 0]

/-- Witness for C5 at concrete datagrams. -/
theorem sap_c5_witness :
    (([1, 2, 3] : List Nat).length < 4 ∧ parse_sap_packet [1, 2, 3] = none) ∧
    (4 ≤ w5data.length ∧ w5data.length ≤ 8 + (w5data.getD 1 0) * 4 ∧
      parse_sap_packet w5data = none) :=
  ⟨⟨by decide, sap_c5.1 [1, 2, 3] (by decide)⟩,
   ⟨by decide, by decide, sap_c5.2 w5data (by decide) (by decide)⟩⟩

/-! ### Claim C6 -/

/-- C6: on an accepted datagram, a NUL in the payload splits it into an
ASCII-decoded MIME type and the SDP body; without a NUL the whole
payload is the SDP body with MIME type defaulted to `application/sdp`;
the body reaches the SDP parser exactly when the MIME type is
`application/sdp` or empty, otherwise nothing is returned. -/
theorem sap_c6 (data : List Nat) (h4 : 4 ≤ data.length)
    (hv : (data.getD 0 0) / 32 % 8 = 1)
    (hc : (data.getD 0 0) % 2 = 0)
    (he : (data.getD 0 0) / 2 % 2 = 0)
    (hl : 8 + (data.getD 1 0) * 4 < data.length) :
    parse_sap_packet data =
      (if 0 ∈ data.drop (8 + data.getD 1 0 * 4) then
        (if decodeAsciiIgnore
              ((data.drop (8 + data.getD 1 0 * 4)).takeWhile (fun b => b != 0)) =
              ("application/sdp".toList) ∨
            decodeAsciiIgnore
              ((data.drop (8 + data.getD 1 0 * 4)).takeWhile (fun b => b != 0)) = []
         then parse_sdp ((data.drop (8 + data.getD 1 0 * 4)).drop
                (((data.drop (8 + data.getD 1 0 * 4)).takeWhile (fun b => b != 0)).length + 1))
         else none)
       else parse_sdp (data.drop (8 + data.getD 1 0 * 4))) := by
  have e1 := listFind0_take (data.drop (8 + data.getD 1 0 * 4))
  have e2 := listFind0_eq_takeWhile_length (data.drop (8 + data.getD 1 0 * 4))
  have e3 : (0 ∈ data.drop (8 + data.getD 1 0 * 4)) ↔
      ¬ (listFind0 (data.drop (8 + data.getD 1 0 * 4)) =
          (data.drop (8 + data.getD 1 0 * 4)).length) := by
    rw [listFind0_eq_length_iff]
    exact not_not.symm
  have e4 : (List.take (listFind0 (data.drop (8 + data.getD 1 0 * 4)))
      (data.drop (8 + data.getD 1 0 * 4))).length =
      listFind0 (data.drop (8 + data.getD 1 0 * 4)) := by
    rw [e1, ← e2]
  simp only [e3, ← e2, ← e1]
  simp only [parse_sap_packet]
  rw [if_neg (by omega), if_neg (fun hcon => hcon hv), if_neg (fun hcon => hcon hc),
      if_neg (fun hcon => hcon he), if_neg (by omega)]
  by_cases hmem : listFind0 (data.drop (8 + data.getD 1 0 * 4)) =
      (data.drop (8 + data.getD 1 0 * 4)).length
  · simp only [hmem, eq_self_iff_true, if_true, true_or, not_true, if_false]
  · simp only [hmem, if_false, not_false_iff, if_true]
    rw [e4]

/-- Concrete accepted datagram for the C6 witness. -/
def w6data : List Nat :=
  [32, 0, 0, 0, 10, 0, 0, 1] ++ asciiBytes "application/sdp" ++ [0] ++
  asciiBytes "s=W\nc=IN IP4 8.8.8.8\nm=audio 1234 RTP 0"

/-- Witness for C6 at a concrete accepted datagram. -/
theorem sap_c6_witness :
    parse_sap_packet w6data =
      (if 0 ∈ w6data.drop (8 + w6data.getD 1 0 * 4) then
        (if decodeAsciiIgnore
              ((w6data.drop (8 + w6data.getD 1 0 * 4)).takeWhile (fun b => b != 0)) =
              ("application/sdp".toList) ∨
            decodeAsciiIgnore
              ((w6data.drop (8 + w6data.getD 1 0 * 4)).takeWhile (fun b => b != 0)) = []
         then parse_sdp ((w6data.drop (8 + w6data.getD 1 0 * 4)).drop
                (((w6data.drop (8 + w6data.getD 1 0 * 4)).takeWhile (fun b => b != 0)).length + 1))
         else none)
       else parse_sdp (w6data.drop (8 + w6data.getD 1 0 * 4))) :=
  sap_c6 w6data (by decide) (by decide) (by decide) (by decide) (by decide)

/-! ### Claim C1 -/

/-- The synthetic SAP packet of the round-trip property: version 1, no
encryption or compression, authLength 0, a 4-byte origin address, the
NUL-terminated MIME token `application/sdp`, and an SDP body with the
prescribed `s=`, `c=` and `m=` lines. -/
def c1packet : List Nat :=
  [32, 0, 0, 0, 192, 168, 1, 1] ++ asciiBytes "application/sdp" ++ [0] ++
  asciiBytes "v=0\ns=Test\nc=IN IP4 239.1.1.1/32\nm=video 5004 RTP/AVP 33"

/-- C1: the synthetic packet parses to a session named `Test` whose
stream URL is `rtp://239.1.1.1:5004`. -/
theorem sap_c1 :
    (parse_sap_packet c1packet).map (fun s => (s.name, s.stream_url)) =
      some ("Test".toList, some ("rtp://239.1.1.1:5004".toList)) := by decide

/-! ### Claim C3 -/

/-- C3: the registry stores only sessions with a (truthy) stream URL;
registering a key already present leaves the registry unchanged, so the
first-registered session wins and a duplicate registration keeps
exactly one entry; a fresh key is appended at the end, so iteration
yields entries in first-insertion order. -/
theorem sap_c3 :
    (∀ (s : Session) (r : Registry), s.stream_url = none → register s r = r) ∧
    (∀ (s : Session) (r : Registry) (u : List Char),
      s.stream_url = some u → containsKey r u = true → register s r = r) ∧
    (∀ (s : Session) (r : Registry) (u : List Char),
      s.stream_url = some u → u ≠ [] → containsKey r u = false →
      register s r = r ++ [(u, s)]) ∧
    (∀ (s : Session) (r : Registry), ∃ t, register s r = r ++ t) ∧
    (∀ (s1 s2 : Session) (u : List Char), u ≠ [] →
      s1.stream_url = some u → s2.stream_url = some u →
      register s2 (register s1 []) = [(u, s1)]) := by
  refine ⟨?_, ?_, ?_, ?_, ?_⟩
  · intro s r h
    simp [register, h]
  · intro s r u hu hk
    simp [register, hu, hk]
  · intro s r u hu hne hk
    simp [register, hu, hne, hk]
  · intro s r
    cases hsu : s.stream_url with
    | none => exact ⟨[], by simp [register, hsu]⟩
    | some u =>
      by_cases hu : u = []
      · exact ⟨[], by simp [register, hsu, hu]⟩
      · by_cases hk : containsKey r u = true
        · exact ⟨[], by simp [register, hsu, hu, hk]⟩
        · exact ⟨[(u, s)], by simp [register, hsu, hu, hk]⟩
  · intro s1 s2 u hne h1 h2
    have hr : register s1 [] = [(u, s1)] := by
      simp [register, h1, hne, containsKey]
    rw [hr]
    have hk : containsKey [(u, s1)] u = true := by simp [containsKey]
    simp [register, h2, hne, hk]

/-- Session with no stream URL (C3 witness). -/
def w3a : Session := ⟨"A".toList, [], [], [], [], [], [], none⟩

/-- First session with a stream URL (C3 witness). -/
def w3b : Session := ⟨"B".toList, [], [], [], [], [], [], some ("rtp://1.1.1.1:1".toList)⟩

/-- Second session with the same stream URL (C3 witness). -/
def w3c : Session := ⟨"C".toList, [], [], [], [], [], [], some ("rtp://1.1.1.1:1".toList)⟩

/-- Witness for C3 at concrete sessions. -/
theorem sap_c3_witness :
    (register w3a [] = []) ∧
    (register w3b [] = [] ++ [(("rtp://1.1.1.1:1".toList), w3b)]) ∧
    (register w3c (register w3b []) = [(("rtp://1.1.1.1:1".toList), w3b)]) :=
  ⟨sap_c3.1 w3a [] rfl,
   sap_c3.2.2.1 w3b [] ("rtp://1.1.1.1:1".toList) rfl (by decide) (by decide),
   sap_c3.2.2.2.2 w3b w3c ("rtp://1.1.1.1:1".toList) (by decide) rfl rfl⟩

/-! ### Claim C8 -/

lemma m3u_foldl (r : Registry) (acc : List Char) :
    r.foldl (fun a e => a ++ m3u_entry e) acc = acc ++ (r.map m3u_entry).flatten := by
  induction r generalizing acc with
  | nil => simp
  | cons e t ih => simp [List.foldl_cons, ih, List.append_assoc]

/-- The claim's identifier formula (for comparison only): strip the
`rtp://` scheme PREFIX — rather than every occurrence — then replace
`:` and `/` with `_`. -/
def tvgIdSpec (u : List Char) : List Char :=
  pyReplace ("/".toList) ("_".toList)
    (pyReplace (":".toList) ("_".toList)
      (if listStartsWith ("rtp://".toList) u then u.drop 6 else u))

/-- The session of the C8 counterexample: its stream URI contains
`rtp://` twice, so `str.replace` removes both occurrences while the
claim's prefix stripping would keep the second one. -/
def c8sess : Session := ⟨"Name".toList, [], [], [], [], [], [], some ("rtp://a:rtp://b".toList)⟩

/-- One-entry registry for the C8 counterexample. -/
def c8reg : Registry := [(("rtp://a:rtp://b".toList), c8sess)]

/-- C8 counterexample: for the stream URI `rtp://a:rtp://b` the claim
requires identifier `a_rtp___b` (prefix stripped), but the generated
playlist contains `a_b` (every occurrence of `rtp://` removed) and not
the claimed identifier. -/
theorem sap_c8_cex :
    tvgIdSpec ("rtp://a:rtp://b".toList) = ("a_rtp___b".toList) ∧
    tvgId ("rtp://a:rtp://b".toList) = ("a_b".toList) ∧
    listContainsSub (("tvg-id=\"".toList) ++ tvgIdSpec ("rtp://a:rtp://b".toList) ++ ("\"".toList))
      ((m3u_text c8reg).getD []) = false ∧
    listContainsSub (("tvg-id=\"".toList) ++ tvgId ("rtp://a:rtp://b".toList) ++ ("\"".toList))
      ((m3u_text c8reg).getD []) = true := by decide

/-- C8 (amended): an empty registry produces no write; a non-empty one
produces the header line followed by one block per entry in insertion
order, each block being the optional `#EXTGRP` line (only when the
group is non-empty), the `#EXTINF` line — whose identifier is the
stream URI with EVERY occurrence of `rtp://` removed and `:` and `/`
replaced by `_`, whose group-title defaults to `General`, and whose
trailing text is the name alone or `name - description` — and the
literal stream URI line. -/
theorem sap_c8 :
    (m3u_text [] = none) ∧
    (∀ r : Registry, r ≠ [] →
      m3u_text r = some (("#EXTM3U\n".toList) ++ (r.map m3u_entry).flatten)) ∧
    (∀ (u : List Char) (s : Session),
      m3u_entry (u, s) =
        (if s.group = [] then []
         else ("#EXTGRP:".toList) ++ s.group ++ ("\n".toList)) ++
        ("#EXTINF:-1 tvg-id=\"".toList) ++
        pyReplace ("/".toList) ("_".toList)
          (pyReplace (":".toList) ("_".toList)
            (pyReplace ("rtp://".toList) [] u)) ++
        ("\" tvg-name=\"".toList) ++
        (if s.name = [] then "Unknown Stream".toList else s.name) ++
        ("\" group-title=\"".toList) ++
        (if s.group = [] then "General".toList else s.group) ++ ("\"".toList) ++
        (if s.description = [] then
          (",".toList) ++ (if s.name = [] then "Unknown Stream".toList else s.name)
         else (",".toList) ++ (if s.name = [] then "Unknown Stream".toList else s.name) ++
              (" - ".toList) ++ s.description) ++
        ("\n".toList) ++ u ++ ("\n".toList)) := by
  refine ⟨rfl, ?_, ?_⟩
  · intro r hr
    simp only [m3u_text, if_neg hr, m3u_foldl]
  · intro u s
    rfl

/-- Registry entry matching the spec's worked example: group `News`,
description `Live feed` (C8 witness). -/
def w8sess : Session :=
  ⟨"News 1".toList, "Live feed".toList, [], [], [], [], "News".toList,
   some ("rtp://239.0.0.1:5004".toList)⟩

/-- One-entry registry for the C8 witness. -/
def w8reg : Registry := [(("rtp://239.0.0.1:5004".toList), w8sess)]

/-- Witness for C8 at a concrete non-empty registry. -/
theorem sap_c8_witness :
    (w8reg ≠ []) ∧
    m3u_text w8reg = some (("#EXTM3U\n".toList) ++ (w8reg.map m3u_entry).flatten) :=
  ⟨by decide, sap_c8.2.1 w8reg (by decide)⟩

/-! ### Claim C9 -/

lemma decodeAscii_filter (bs : List Nat) :
    decodeAsciiIgnore bs =
      (bs.filter (fun b => decide (b < 128))).map (fun b => Char.ofNat b) := by
  induction bs with
  | nil => rfl
  | cons b t ih =>
    by_cases hb : b < 128 <;> simp [decodeAsciiIgnore, List.filter_cons, hb, ih]

lemma utf8StartByte_invalid {b : Nat} (h : (128 ≤ b ∧ b ≤ 193) ∨ 245 ≤ b) :
    utf8StartByte b = (none, none) := by
  unfold utf8StartByte
  split_ifs <;> first | rfl | omega

/-- C9 counterexample: the invalid byte 0xFF is dropped by both
decoders — the decoded text is empty and contains no U+FFFD replacement
character, contrary to the claim that every invalid byte leaves a
visible replacement mark. -/
theorem sap_c9_cex :
    decodeUtf8Ignore [255] = [] ∧ decodeAsciiIgnore [255] = [] ∧
    ¬ ('�' ∈ decodeUtf8Ignore [255]) := by decide

lemma decodeUtf8Go_break (st : Utf8State) (c : Nat) (rest : List Nat)
    (h : ¬ (st.lo ≤ c ∧ c ≤ st.hi)) :
    decodeUtf8Go (some st) (c :: rest) = decodeUtf8Go none (c :: rest) := by
  rcases hsb : utf8StartByte c with ⟨oc, ost⟩
  cases oc <;> simp [decodeUtf8Go, if_neg h, hsb]

lemma decodeUtf8_lead_break (b c : Nat) (rest : List Nat) (st : Utf8State)
    (hb : utf8StartByte b = (none, some st)) (hc : ¬ (st.lo ≤ c ∧ c ≤ st.hi)) :
    decodeUtf8Ignore (b :: c :: rest) = decodeUtf8Ignore (c :: rest) := by
  have h1 : decodeUtf8Go none (b :: c :: rest) = decodeUtf8Go (some st) (c :: rest) := by
    simp [decodeUtf8Go, hb]
  show decodeUtf8Go none (b :: c :: rest) = decodeUtf8Go none (c :: rest)
  rw [h1]
  exact decodeUtf8Go_break st c rest hc

/-- C9 (amended): decoding never fails (both decoders are total
functions) but invalid input is DROPPED rather than replaced, at every
decoder position: the ASCII decoder keeps exactly the bytes below 128;
the UTF-8 decoder skips an invalid start byte (0x80–0xC1 or 0xF5–0xFF),
discards a sequence whose lead byte is followed by an out-of-range byte
(reconsidering the breaking byte as a fresh start byte), likewise
discards a sequence broken after any number of valid continuation bytes,
and discards a sequence left incomplete at the end of the input — in
every case contributing no character, and in particular no replacement
mark, to the decoded text. -/
theorem sap_c9 :
    (∀ bs : List Nat, decodeAsciiIgnore bs =
      (bs.filter (fun b => decide (b < 128))).map (fun b => Char.ofNat b)) ∧
    (∀ (b : Nat) (rest : List Nat), (128 ≤ b ∧ b ≤ 193) ∨ 245 ≤ b →
      decodeUtf8Ignore (b :: rest) = decodeUtf8Ignore rest) ∧
    (∀ (b c : Nat) (rest : List Nat) (st : Utf8State),
      utf8StartByte b = (none, some st) → ¬ (st.lo ≤ c ∧ c ≤ st.hi) →
      decodeUtf8Ignore (b :: c :: rest) = decodeUtf8Ignore (c :: rest)) ∧
    (∀ (st : Utf8State) (c : Nat) (rest : List Nat), ¬ (st.lo ≤ c ∧ c ≤ st.hi) →
      decodeUtf8Go (some st) (c :: rest) = decodeUtf8Go none (c :: rest)) ∧
    (∀ st : Utf8State, decodeUtf8Go (some st) [] = []) := by
  refine ⟨decodeAscii_filter, ?_, decodeUtf8_lead_break, decodeUtf8Go_break, fun st => rfl⟩
  intro b rest h
  have hb := utf8StartByte_invalid h
  simp [decodeUtf8Ignore, decodeUtf8Go, hb]

/-- Witness for C9: the invalid byte 255 before an `a` is skipped; the
broken two-byte sequence 0xC2 0x41 loses its lead byte while the `A` is
reprocessed; a sequence pending one continuation byte that meets an
out-of-range byte restarts at that byte; the truncated 0xE0 0xA0 at end
of input decodes to nothing. -/
theorem sap_c9_witness :
    ((((128 ≤ 255 ∧ 255 ≤ 193) ∨ 245 ≤ 255) ∧
      decodeUtf8Ignore (255 :: [97]) = decodeUtf8Ignore [97]) ∧
     (utf8StartByte 194 = (none, some ⟨1, 2, 128, 191⟩) ∧
      decodeUtf8Ignore (194 :: 65 :: []) = decodeUtf8Ignore (65 :: []) ∧
      decodeUtf8Ignore [194, 65] = ['A']) ∧
     (decodeUtf8Go (some ⟨1, 32, 128, 191⟩) (65 :: []) = decodeUtf8Go none (65 :: []) ∧
      decodeUtf8Ignore [224, 160] = [])) :=
  ⟨⟨by decide, sap_c9.2.1 255 [97] (by decide)⟩,
   ⟨by decide, sap_c9.2.2.1 194 65 [] ⟨1, 2, 128, 191⟩ (by decide) (by decide), by decide⟩,
   ⟨sap_c9.2.2.2.1 ⟨1, 32, 128, 191⟩ 65 [] (by decide), by decide⟩⟩

end SapM3u
